import Mathlib

set_option maxRecDepth 8000

/-!
# Verification of the astro-sessionkit authorization core

Shallow embedding of the route-pattern matcher, the validators, the
configuration store, the rule-evaluation engine (guard middleware) and the
session-mutation API of `astro-sessionkit`, together with proofs of the
specification claims about them.

Source files embedded:
* `src/core/matcher.ts` — `escapeRegex`, `globToRegex`, `matchesPattern`
* `src/core/validation.ts` — `isValidSessionStructure`, `isValidPattern`,
  `isValidRedirectPath`
* `src/core/config.ts` — `setConfig`, `getConfig`
* `src/core/guard.ts` — `checkRule`, `createGuardMiddleware`
* `src/serverApi.ts` — `updateSession`
-/

-- ============================================================================
-- Pattern matcher (src/core/matcher.ts)
-- ============================================================================

/--
A token of the regex string built by `globToRegex`.  The JS code builds the
regex as a string; each constructor below stands for one fragment the code
appends:
* `lit c` — `escapeRegex(char)`, a single literal character (escaping does not
  change the matched language, it only protects regex metacharacters);
* `star` — `".*"`, appended for `**` not in the special final-`/**` position;
* `optTail` — `"(?:/.*)?"`, appended for a final `/**` (after stripping the
  preceding `/` literal);
* `segplus` — `"[^/]+(?:/[^/]+)*"`, appended for a single `*`.
-/
inductive Rtok where
  | lit (c : Char)
  | star
  | optTail
  | segplus
deriving DecidableEq

/-- All suffixes of a list, longest first (the list itself down to `[]`). -/
def suffixes : List Char → List (List Char)
  | [] => [[]]
  | c :: r => (c :: r) :: suffixes r

/-- All ways to split a list into a prefix and a suffix. -/
def splits : List Char → List (List Char × List Char)
  | [] => [([], [])]
  | c :: r => ([], c :: r) :: (splits r).map (fun q => (c :: q.1, q.2))

/--
Helper for `segWord`: the flag records whether a further non-`/` character is
still required (true right after a `/` separator and at the start).
-/
def segAux : Bool → List Char → Bool
  | need, [] => !need
  | need, c :: r => if c = '/' then (if need then false else segAux true r) else segAux false r

/--
Language of the regex fragment `[^/]+(?:/[^/]+)*`: one or more non-empty
`/`-free segments joined by single `/` characters.
-/
def segWord (w : List Char) : Bool := segAux true w

/--
Anchored matching of a token list (the regex `^...$` built by `globToRegex`)
against a path, by language membership.  `.test` on an anchored regex asks
whether any decomposition of the full input matches, which is what the
backtracking search below computes.
-/
def tokMatch : List Rtok → List Char → Bool
  | [], w => w.isEmpty
  | Rtok.lit c :: ts, w =>
    match w with
    | [] => false
    | x :: xs => (x == c) && tokMatch ts xs
  | Rtok.star :: ts, w => (suffixes w).any (fun r => tokMatch ts r)
  | Rtok.optTail :: ts, w =>
    tokMatch ts w ||
      (match w with
       | x :: xs => (x == '/') && (suffixes xs).any (fun r => tokMatch ts r)
       | [] => false)
  | Rtok.segplus :: ts, w => (splits w).any (fun q => segWord q.1 && tokMatch ts q.2)

/--
`if (regex.endsWith("/")) regex = regex.slice(0, -1);` — the regex string ends
in `/` exactly when the last appended token is the one-character literal `/`
(every other token's string ends in `*` or `?`, and escaped literals end in
the escaped character itself).
-/
def stripSlash (acc : List Rtok) : List Rtok :=
  if acc.getLast? = some (Rtok.lit '/') then acc.dropLast else acc

/--
The scanning loop of `globToRegex`.  `acc` is the regex built so far, `prev`
is `pattern[i-1]` (`none` at the start).  Mirrors the JS loop:
a `**` pair that is at the end of the pattern and immediately preceded by `/`
strips the trailing `/` and appends `(?:/.*)?`; any other `**` appends `.*`;
a lone `*` appends `[^/]+(?:/[^/]+)*`; anything else appends the literal.
-/
def globToks (acc : List Rtok) (prev : Option Char) : List Char → List Rtok
  | [] => acc
  | '*' :: '*' :: rest2 =>
    if rest2 = [] ∧ prev = some '/' then
      globToks (stripSlash acc ++ [Rtok.optTail]) (some '*') rest2
    else
      globToks (acc ++ [Rtok.star]) (some '*') rest2
  | '*' :: rest => globToks (acc ++ [Rtok.segplus]) (some '*') rest
  | c :: rest => globToks (acc ++ [Rtok.lit c]) (some c) rest

/-- `globToRegex(pattern)` as a token list (the body of `^...$`). -/
def globToRegex (pattern : String) : List Rtok :=
  globToks [] none pattern.toList

/-- `matchesPattern(pattern, path)` — `globToRegex(pattern).test(path)`. -/
def matchesPattern (pattern path : String) : Bool :=
  tokMatch (globToRegex pattern) path.toList


-- ============================================================================
-- Validators (src/core/validation.ts)
-- ============================================================================

/--
The session record (`Session` in `src/core/types.ts`): required `userId`,
optional `email`, `role`, `roles`, `permissions`.  Arbitrary extra custom
fields are not modelled; none of the verified code reads them.
-/
structure Session where
  userId : String
  email : Option String := none
  role : Option String := none
  roles : Option (List String) := none
  permissions : Option (List String) := none

/--
`isValidSessionStructure(input)` on a value that already has the `Session`
shape (the dynamic `typeof` checks of the JS code are subsumed by typing):
`userId` must be non-empty after trimming (`!userId.trim()` fails, i.e. some
character is not whitespace) and at most 255 characters;
`email`, if present, at most 320; `role`, if present, at most 100;
`roles`, if present, at most 100 entries of at most 100 characters each;
`permissions`, if present, at most 500 entries of at most 200 characters each.
-/
def isValidSessionStructure (s : Session) : Bool :=
  (s.userId.toList.any (fun c => !c.isWhitespace)) && (s.userId.length ≤ 255)
    && (match s.email with
        | some e => e.length ≤ 320
        | none => true)
    && (match s.role with
        | some r => r.length ≤ 100
        | none => true)
    && (match s.roles with
        | some rs => (rs.length ≤ 100 : Bool) && rs.all (fun r => r.length ≤ 100)
        | none => true)
    && (match s.permissions with
        | some ps => (ps.length ≤ 500 : Bool) && ps.all (fun p => p.length ≤ 200)
        | none => true)

/--
The test `/\*{4,}/.test(pattern)` of `isValidPattern`: searches the pattern
for four consecutive `*` characters.  The accumulator counts the `*` run seen
immediately before the current position.
-/
def hfsAux : Nat → List Char → Bool
  | _, [] => false
  | n, c :: r => if c = '*' then (if 4 ≤ n + 1 then true else hfsAux (n + 1) r) else hfsAux 0 r

/-- `/\*{4,}/.test(pattern)`. -/
def hasFourStars (l : List Char) : Bool := hfsAux 0 l

/--
The `for` loop of `isValidPattern`, as a scan.  The state `none` means the
current position is not inside a `*` run; `some n` means the scan is inside a
run whose length so far is `n`.  When a run ends the loop requires the run
length to be at most 3 (runs of length 0 cannot occur) and the character
after the run, if any, to be `/`; scanning then resumes at that character,
which is not a `*`, so resuming after it is the same.
-/
def runsOkAux : Option Nat → List Char → Bool
  | none, [] => true
  | some n, [] => decide (n ≤ 3)
  | none, c :: r => if c = '*' then runsOkAux (some 1) r else runsOkAux none r
  | some n, c :: r =>
    if c = '*' then runsOkAux (some (n + 1)) r
    else decide (n ≤ 3) && (c == '/') && runsOkAux none r

/--
`isValidPattern(pattern)`: non-empty, at most 1000 characters, starts with
`/`, no four consecutive `*` anywhere, and every `*` run has length 1–3 and
is followed by `/` or the end of the pattern.  (The dynamic string type check
is subsumed by typing.)
-/
def isValidPattern (pattern : String) : Bool :=
  let l := pattern.toList
  if l.length = 0 then false
  else if 1000 < l.length then false
  else if !(l.head? == some '/') then false
  else if hasFourStars l then false
  else runsOkAux none l

/--
The trailing part of the scheme test `/^[a-zA-Z][a-zA-Z0-9+.-]*:/`: a possibly
empty run of `[a-zA-Z0-9+.-]` characters followed by `:`.  The character `:`
is not in the class, so the backtracking search of the regex engine and this
greedy scan accept the same strings.
-/
def schemeTail : List Char → Bool
  | [] => false
  | c :: r =>
    if c = ':' then true
    else if c.isAlpha || c.isDigit || c = '+' || c = '.' || c = '-' then schemeTail r
    else false

/-- `/^[a-zA-Z][a-zA-Z0-9+.-]*:/.test(path)`. -/
def isSchemeLike : List Char → Bool
  | [] => false
  | c :: r => c.isAlpha && schemeTail r

/--
`isValidRedirectPath(path)`: length 1–500, starts with `/` but not with `//`,
and does not look like a URL with a scheme.  (The dynamic string type check is
subsumed by typing.)
-/
def isValidRedirectPath (path : String) : Bool :=
  let l := path.toList
  if l.length = 0 || 500 < l.length then false
  else if !(List.isPrefixOf ['/'] l) || List.isPrefixOf ['/', '/'] l then false
  else !(isSchemeLike l)


-- ============================================================================
-- Protection rules and configuration (src/core/types.ts, src/core/config.ts)
-- ============================================================================

/--
The discriminant of a `ProtectionRule` (`role` / `roles` / `permission` /
`permissions` / `allow`).  `checkRule` probes the discriminants in a fixed
order, and the `ProtectionRule` union type guarantees exactly one is present,
so a closed sum is a faithful model.  The asynchronous `allow` predicate is
modelled by the boolean its (awaited) promise resolves to.
-/
inductive RuleVariant where
  | allow (f : Option Session → Bool)
  | role (r : String)
  | roles (rs : List String)
  | permission (p : String)
  | permissions (ps : List String)

/-- A protection rule: pattern, optional redirect override, one variant. -/
structure ProtectionRule where
  pattern : String
  redirectTo : Option String := none
  variant : RuleVariant

/--
Resolved access hooks (the `access` field of `ResolvedConfig`): `getRole` and
`getPermissions` are always present after defaulting, `check` stays optional.
Asynchronous results are modelled by their resolved boolean.
-/
structure Access where
  getRole : Option Session → Option String
  getPermissions : Option Session → List String
  check : Option (ProtectionRule → Option Session → Bool) := none

/--
`ResolvedConfig`: the process-wide configuration after defaulting.  The three
optional context hooks are functions whose behaviour none of the verified
code depends on — only their presence is consulted — so they are modelled by
presence markers.
-/
structure ResolvedConfig where
  loginPath : String
  protect : List ProtectionRule
  access : Access
  runWithContext : Option Unit := none
  getContextStore : Option Unit := none
  setContextStore : Option Unit := none

/-- The user-supplied `access` hooks (all optional). -/
structure AccessHooks where
  getRole : Option (Option Session → Option String) := none
  getPermissions : Option (Option Session → List String) := none
  check : Option (ProtectionRule → Option Session → Bool) := none

/-- `SessionKitConfig`: the user-supplied configuration input. -/
structure SessionKitConfig where
  loginPath : Option String := none
  protect : Option (List ProtectionRule) := none
  access : Option AccessHooks := none
  runWithContext : Option Unit := none
  getContextStore : Option Unit := none
  setContextStore : Option Unit := none

/-- `session?.role ?? null` — the default `getRole` hook. -/
def defaultGetRole (s : Option Session) : Option String :=
  match s with
  | some sess => sess.role
  | none => none

/-- `session?.permissions ?? []` — the default `getPermissions` hook. -/
def defaultGetPermissions (s : Option Session) : List String :=
  match s with
  | some sess => sess.permissions.getD []
  | none => []

/-- `DEFAULT_CONFIG` from `src/core/config.ts`. -/
def DEFAULT_CONFIG : ResolvedConfig :=
  { loginPath := "/login"
  , protect := []
  , access := { getRole := defaultGetRole, getPermissions := defaultGetPermissions, check := none } }

/--
The rule-validation loop of `setConfig`: the first rule with an invalid
pattern, or with a truthy (present and non-empty) but invalid `redirectTo`,
raises.  A present but empty `redirectTo` is falsy in JS, so the
`rule.redirectTo && !isValidRedirectPath(rule.redirectTo)` guard skips it.
-/
def validateRules : List ProtectionRule → Except String Unit
  | [] => Except.ok ()
  | r :: rest =>
    if !(isValidPattern r.pattern) then
      Except.error ("[SessionKit] Invalid pattern: " ++ r.pattern)
    else
      match r.redirectTo with
      | some rt =>
        if (rt != "") && !(isValidRedirectPath rt) then
          Except.error ("[SessionKit] Invalid redirectTo: " ++ rt)
        else validateRules rest
      | none => validateRules rest

/-- The `loginPath` validation step of `setConfig`. -/
def validateLoginPath (user : SessionKitConfig) : Except String String :=
  match user.loginPath with
  | some lp =>
    if isValidRedirectPath lp then Except.ok lp
    else Except.error ("[SessionKit] Invalid loginPath: " ++ lp)
  | none => Except.ok DEFAULT_CONFIG.loginPath

/-- The `access` defaulting step of `setConfig`. -/
def resolveAccess (user : SessionKitConfig) : Access :=
  match user.access with
  | some a =>
    { getRole := a.getRole.getD defaultGetRole
    , getPermissions := a.getPermissions.getD defaultGetPermissions
    , check := a.check }
  | none => DEFAULT_CONFIG.access

/--
`setConfig(userConfig)`: validates `loginPath`, then each rule, then the
context getter/setter pairing, and only then builds and stores the new
configuration.  A thrown validation error is an `Except.error`; the store
update itself is modelled by `applySetConfig`.
-/
def setConfig (user : SessionKitConfig) : Except String ResolvedConfig :=
  match validateLoginPath user with
  | Except.error e => Except.error e
  | Except.ok lp =>
    match (match user.protect with
           | some rules => validateRules rules
           | none => Except.ok ()) with
    | Except.error e => Except.error e
    | Except.ok _ =>
      if user.getContextStore.isSome != user.setContextStore.isSome then
        Except.error "[SessionKit] Both getContextStore and setContextStore must be provided together if using custom context storage."
      else
        Except.ok
          { loginPath := lp
          , protect := user.protect.getD DEFAULT_CONFIG.protect
          , access := resolveAccess user
          , runWithContext := user.runWithContext
          , getContextStore := user.getContextStore
          , setContextStore := user.setContextStore }

/--
The effect of a `setConfig` call on the module-level `config` variable that
`getConfig` returns: on success the new configuration replaces the old one
(the assignment is the last statement of `setConfig`); a validation error is
thrown before the assignment, leaving the stored value unchanged.  Returns
the stored configuration after the call and whether an error was raised.
-/
def applySetConfig (old : ResolvedConfig) (user : SessionKitConfig) : ResolvedConfig × Bool :=
  match setConfig user with
  | Except.ok c => (c, false)
  | Except.error _ => (old, true)

/-- The configuration `setConfig` builds when validation succeeds. -/
def resolveConfig (user : SessionKitConfig) : ResolvedConfig :=
  { loginPath := user.loginPath.getD DEFAULT_CONFIG.loginPath
  , protect := user.protect.getD DEFAULT_CONFIG.protect
  , access := resolveAccess user
  , runWithContext := user.runWithContext
  , getContextStore := user.getContextStore
  , setContextStore := user.setContextStore }

-- ============================================================================
-- Rule evaluation and guard middleware (src/core/guard.ts)
-- ============================================================================

/--
`checkRule(rule, session)` against access hooks `access` (read from the
configuration): a configured global `check` hook decides alone; otherwise an
`allow` rule's own predicate decides (even for a null session); otherwise a
missing session is denied; otherwise the built-in `role` / `roles` /
`permission` / `permissions` logic applies.  Asynchronous predicates are
modelled by their awaited boolean result.
-/
def checkRule (access : Access) (rule : ProtectionRule) (session : Option Session) : Bool :=
  match access.check with
  | some chk => chk rule session
  | none =>
    match rule.variant, session with
    | RuleVariant.allow f, s => f s
    | _, none => false
    | RuleVariant.role r, some s => access.getRole (some s) == some r
    | RuleVariant.roles rs, some s =>
      match access.getRole (some s) with
      | none => false
      | some ur => rs.contains ur
    | RuleVariant.permission p, some s => (access.getPermissions (some s)).contains p
    | RuleVariant.permissions ps, some s =>
      ps.all (fun q => (access.getPermissions (some s)).contains q)

/-- The outcome of the guard middleware for one request. -/
inductive GuardOutcome where
  | next
  | redirect (target : String)
deriving DecidableEq

/--
The request handler returned by `createGuardMiddleware`, for a request whose
URL has path `pathname` and whose context store holds `session`
(`getContextStore()?.session ?? null`): with no rules it calls `next()`
immediately; otherwise it finds the first rule whose pattern matches the
path; with no match it calls `next()`; otherwise the matched rule is checked
and either `next()` runs or a redirect to `rule.redirectTo ?? loginPath` is
returned.
-/
def guardMiddleware (cfg : ResolvedConfig) (pathname : String) (session : Option Session) : GuardOutcome :=
  if cfg.protect.isEmpty then GuardOutcome.next
  else
    match cfg.protect.find? (fun r => matchesPattern r.pattern pathname) with
    | none => GuardOutcome.next
    | some rule =>
      if checkRule cfg.access rule session then GuardOutcome.next
      else GuardOutcome.redirect (rule.redirectTo.getD cfg.loginPath)

-- ============================================================================
-- Session mutation API (src/serverApi.ts)
-- ============================================================================

/--
A `Partial<Session>` as passed to `updateSession`: `some v` models a property
present with value `v`, `none` an absent property.
-/
structure SessionUpdate where
  userId : Option String := none
  email : Option String := none
  role : Option String := none
  roles : Option (List String) := none
  permissions : Option (List String) := none

/-- The empty update object `\x7b\x7d`. -/
def emptyUpdate : SessionUpdate := {}

/--
The spread merge `\x7b...currentSession, ...updates\x7d`: every property
present on `updates` overrides the current one, every other property is kept.
-/
def mergeSession (cur : Session) (u : SessionUpdate) : Session :=
  { userId := u.userId.getD cur.userId
  , email := match u.email with
      | some e => some e
      | none => cur.email
  , role := match u.role with
      | some r => some r
      | none => cur.role
  , roles := match u.roles with
      | some rs => some rs
      | none => cur.roles
  , permissions := match u.permissions with
      | some ps => some ps
      | none => cur.permissions }

/--
`updateSession(context, updates)`, acting on the session slot
(`context.session.get('__session__')`) of the carrier: with no stored session
it throws; otherwise it merges, validates the merged session, throws if the
merged session is invalid, and writes the merged session back.  The returned
value is the new slot content; `Except.error` models a throw (which happens
before any write).
-/
def updateSession (stored : Option Session) (updates : SessionUpdate) : Except String (Option Session) :=
  match stored with
  | none => Except.error "[SessionKit] Cannot update session: no session exists"
  | some cur =>
    let updatedSession := mergeSession cur updates
    if isValidSessionStructure updatedSession then Except.ok (some updatedSession)
    else Except.error "[SessionKit] Invalid session structure after update. Ensure all fields are valid."

/--
The effect of an `updateSession` call on the stored slot: on success the
merged session is written; a throw leaves the slot unchanged.  Returns the
slot content after the call and whether an error was raised.
-/
def applyUpdate (stored : Option Session) (updates : SessionUpdate) : Option Session × Bool :=
  match updateSession stored updates with
  | Except.ok st => (st, false)
  | Except.error _ => (stored, true)

-- ============================================================================
-- Concrete instances and measurement helpers used in the claim statements
-- ============================================================================

/--
Counts the wildcard-bearing segments of a pattern: the `/`-separated segments
that contain a `*`.  The flag records whether the current segment has already
seen a `*`.
-/
def wsAux : Bool → List Char → Nat
  | seen, [] => if seen then 1 else 0
  | seen, c :: r =>
    if c = '/' then (if seen then 1 else 0) + wsAux false r
    else wsAux (seen || c = '*') r

/-- Number of wildcard-bearing segments of a pattern. -/
def wildcardSegments (p : String) : Nat := wsAux false p.toList

/--
The pattern `"/" + "a*/".repeat(n) + "a*"`: `n + 1` wildcard-bearing
segments, every `*` run of length 1 and slash-aligned, length `3 * n + 3`.
-/
def famPat (n : Nat) : String :=
  String.mk ('/' :: (List.replicate n ['a', '*', '/']).flatten ++ ['a', '*'])

/-- A pattern with 21 wildcard-bearing segments. -/
def pat21 : String := "/a*/a*/a*/a*/a*/a*/a*/a*/a*/a*/a*/a*/a*/a*/a*/a*/a*/a*/a*/a*/a*"

/-- The redirect path `"/" + "a".repeat(499)`, of length 500. -/
def path500 : String := String.mk ('/' :: List.replicate 499 'a')

/-- Rule `\x7b pattern: "/admin/**", role: "admin" \x7d`. -/
def ruleAdminAll : ProtectionRule :=
  { pattern := "/admin/**", variant := RuleVariant.role "admin" }

/-- Rule `\x7b pattern: "/admin/users", role: "superadmin" \x7d`. -/
def ruleAdminUsers : ProtectionRule :=
  { pattern := "/admin/users", variant := RuleVariant.role "superadmin" }

/-- A configuration protecting `/admin/**` then `/admin/users`. -/
def cfgAdmin : ResolvedConfig :=
  { DEFAULT_CONFIG with protect := [ruleAdminAll, ruleAdminUsers] }

/-- A global `check` hook that denies every request. -/
def overrideDeny : ProtectionRule → Option Session → Bool := fun _ _ => false

/-- Default access hooks with the deny-everything `check` override installed. -/
def accOverride : Access :=
  { getRole := defaultGetRole, getPermissions := defaultGetPermissions, check := some overrideDeny }

/-- A session whose role is `admin`. -/
def sessAdmin : Session := { userId := "u1", role := some "admin" }

/-- A configuration input with a protocol-relative (invalid) `loginPath`. -/
def userBadLoginPath : SessionKitConfig := { loginPath := some "//evil" }

/-- A protection rule whose `redirectTo` is present but empty. -/
def ruleEmptyRedirect : ProtectionRule :=
  { pattern := "/a", redirectTo := some "", variant := RuleVariant.role "admin" }

/-- A configuration input containing `ruleEmptyRedirect`. -/
def userEmptyRedirect : SessionKitConfig := { protect := some [ruleEmptyRedirect] }

/-- A valid configuration input: one pattern, explicit valid `loginPath`. -/
def userOk : SessionKitConfig :=
  { loginPath := some "/signin", protect := some [ruleAdminAll] }

/--
The specification's characterization of a valid redirect path, with the
length bound amended to match the code: length between 1 and 500, first
character `/`, not starting with `//`, and not matching the URI-scheme
prefix pattern.
-/
def redirectPathSpec (p : String) : Bool :=
  (1 ≤ p.toList.length : Bool) && (p.toList.length ≤ 500 : Bool)
    && (p.toList.head? == some '/')
    && !(List.isPrefixOf ['/', '/'] p.toList)
    && !(isSchemeLike p.toList)

/--
A rule that makes `setConfig` raise: invalid pattern, or a `redirectTo` that
is present, non-empty (JS truthiness) and not a valid redirect path.
-/
def ruleBad (r : ProtectionRule) : Bool :=
  !(isValidPattern r.pattern)
    || (match r.redirectTo with
        | some rt => (rt != "") && !(isValidRedirectPath rt)
        | none => false)

/--
The specification's validation-failure condition for `setConfig`, with the
`redirectTo` clause amended to require a non-empty value: an invalid
`loginPath`, some bad rule, or exactly one of the context store
getter/setter supplied.
-/
def configBad (user : SessionKitConfig) : Bool :=
  (match user.loginPath with
   | some lp => !(isValidRedirectPath lp)
   | none => false)
    || (match user.protect with
        | some rules => rules.any ruleBad
        | none => false)
    || (user.getContextStore.isSome != user.setContextStore.isSome)

-- ============================================================================
-- Theorems
-- ============================================================================

/--
**C7.** When a global `check` override hook is configured, the verdict for
every matched rule and every session (including a null session) equals the
result of that hook applied to the rule and the session; none of the built-in
variant logic is consulted.
-/
theorem checkRule_check_override (access : Access)
    (chk : ProtectionRule → Option Session → Bool)
    (rule : ProtectionRule) (session : Option Session)
    (h : access.check = some chk) :
    checkRule access rule session = chk rule session := by
  unfold checkRule
  rw [h]

/--
Witness for C7: the deny-everything override denies an `/admin` role rule even
for a session whose role is `admin`.
-/
theorem checkRule_check_override_witness :
    checkRule accOverride ruleAdminAll (some sessAdmin) = false :=
  checkRule_check_override accOverride overrideDeny ruleAdminAll (some sessAdmin) rfl

/--
**C8.** When no global `check` override is configured, every rule that does
not carry an `allow` function denies a null session, regardless of which of
the built-in variants (`role`, `roles`, `permission`, `permissions`) the rule
carries.
-/
theorem checkRule_null_session_denied (access : Access) (rule : ProtectionRule)
    (hchk : access.check = none)
    (hallow : ∀ f, rule.variant ≠ RuleVariant.allow f) :
    checkRule access rule none = false := by
  rcases rule with ⟨pat, rd, v⟩
  cases v with
  | allow f => exact absurd rfl (hallow f)
  | role r => simp [checkRule, hchk]
  | roles rs => simp [checkRule, hchk]
  | permission p => simp [checkRule, hchk]
  | permissions ps => simp [checkRule, hchk]

/-- Witness for C8: the default hooks deny `ruleAdminAll` without a session. -/
theorem checkRule_null_session_denied_witness :
    checkRule DEFAULT_CONFIG.access ruleAdminAll none = false :=
  checkRule_null_session_denied DEFAULT_CONFIG.access ruleAdminAll rfl
    (fun f h => by simp [ruleAdminAll] at h)

/--
**C10.** Updating with the empty partial object is the identity: the merge of
a session with the empty update is the session itself, and the stored slot
after `updateSession(ctx, \x7b\x7d)` equals its prior value; with no stored
session, `updateSession` raises synchronously and writes nothing.
-/
theorem updateSession_empty_update_identity :
    (∀ cur : Session, mergeSession cur emptyUpdate = cur)
    ∧ (∀ cur : Session, (applyUpdate (some cur) emptyUpdate).1 = some cur)
    ∧ (∀ u : SessionUpdate,
        applyUpdate none u = (none, true)
        ∧ ∃ e, updateSession none u = Except.error e) := by
  refine ⟨fun cur => rfl, fun cur => ?_, fun u => ⟨rfl, _, rfl⟩⟩
  have hm : mergeSession cur emptyUpdate = cur := rfl
  by_cases h : isValidSessionStructure cur <;>
    simp [applyUpdate, updateSession, hm, h]

/-- A `find?` that succeeds can only do so on a non-empty list. -/
theorem find?_some_ne_nil {α : Type} {p : α → Bool} {l : List α} {x : α}
    (h : l.find? p = some x) : l ≠ [] := by
  cases l with
  | nil => simp [List.find?] at h
  | cons a t => exact fun hc => List.noConfusion hc

/--
`find?` over a list whose prefix all fails the predicate and whose next
element satisfies it returns that element, whatever follows it.
-/
theorem find?_first_after_failures {α : Type} {p : α → Bool}
    (pre : List α) (x : α) (t : List α)
    (hpre : ∀ r ∈ pre, p r = false) (hx : p x = true) :
    (pre ++ x :: t).find? p = some x := by
  induction pre with
  | nil => simp [List.find?_cons_of_pos, hx]
  | cons a pre ih =>
    have ha : p a = false := hpre a (by simp)
    have ih' := ih (fun r hr => hpre r (by simp [hr]))
    simpa [List.find?_cons_of_neg, ha] using ih'

/--
**C1.** The guard middleware evaluates exactly the first rule (in configured
order) whose pattern matches the request path: when no rule matches, the
downstream handler runs; when some rule is the first match, the outcome is
determined by checking that rule alone (allow continues, deny redirects to
its target), and the rules after the first match have no effect on the
outcome whatsoever.
-/
theorem guard_first_match_authoritative
    (cfg : ResolvedConfig) (path : String) (session : Option Session) :
    (cfg.protect.find? (fun r => matchesPattern r.pattern path) = none →
      guardMiddleware cfg path session = GuardOutcome.next)
    ∧ (∀ rule, cfg.protect.find? (fun r => matchesPattern r.pattern path) = some rule →
        guardMiddleware cfg path session =
          if checkRule cfg.access rule session then GuardOutcome.next
          else GuardOutcome.redirect (rule.redirectTo.getD cfg.loginPath))
    ∧ (∀ (pre : List ProtectionRule) (rule : ProtectionRule)
          (t t' : List ProtectionRule),
        (∀ r ∈ pre, matchesPattern r.pattern path = false) →
        matchesPattern rule.pattern path = true →
        guardMiddleware { cfg with protect := pre ++ rule :: t } path session
          = guardMiddleware { cfg with protect := pre ++ rule :: t' } path session) := by
  refine ⟨?_, ?_, ?_⟩
  · intro hnone
    unfold guardMiddleware
    by_cases he : cfg.protect.isEmpty <;> simp [he, hnone]
  · intro rule hfind
    have hne : cfg.protect ≠ [] := find?_some_ne_nil hfind
    have he : cfg.protect.isEmpty = false := by
      cases h : cfg.protect with
      | nil => exact absurd h hne
      | cons a t => rfl
    unfold guardMiddleware
    simp [he, hfind]
  · intro pre rule t t' hpre hrule
    have h1 := find?_first_after_failures pre rule t hpre hrule
    have h2 := find?_first_after_failures pre rule t' hpre hrule
    unfold guardMiddleware
    simp [h1, h2]

/--
Witness for C1: with rules `/admin/**` (role `admin`) before `/admin/users`
(role `superadmin`) and path `/admin/users`, only the first rule is
evaluated; with no session it denies and redirects to the default
`loginPath`.
-/
theorem guard_first_match_authoritative_witness :
    guardMiddleware cfgAdmin "/admin/users" none = GuardOutcome.redirect "/login" := by
  have h := (guard_first_match_authoritative cfgAdmin "/admin/users" none).2.1
    ruleAdminAll rfl
  exact h

/--
**C6, counterexample.** The claim bounds accepted lengths by 499, but the
code accepts up to 500: the path `"/" + "a".repeat(499)` has length 500 and
`isValidRedirectPath` accepts it (the repository's own test
"accepts paths at length limit" expects exactly this).
-/
theorem isValidRedirectPath_length500_counterexample :
    path500.length = 500 ∧ isValidRedirectPath path500 = true := by
  constructor <;> decide

/--
**C6, amended.** `isValidRedirectPath(p)` returns true exactly when `p` has
length between 1 and 500, starts with exactly one `/` (a leading `//` is
rejected), and does not begin with a URI-scheme prefix; in particular
`"http://x"`, `"//x"` and `"javascript:x"` are rejected and `"/x"` is
accepted.
-/
theorem isValidRedirectPath_characterization :
    (∀ p : String, isValidRedirectPath p = redirectPathSpec p)
    ∧ isValidRedirectPath "http://x" = false
    ∧ isValidRedirectPath "//x" = false
    ∧ isValidRedirectPath "javascript:x" = false
    ∧ isValidRedirectPath "/x" = true := by
  refine ⟨?_, by decide, by decide, by decide, by decide⟩
  intro p
  rw [Bool.eq_iff_iff]
  unfold isValidRedirectPath redirectPathSpec
  rcases hl : p.toList with _ | ⟨c, r⟩
  · simp
  · by_cases hc : c = '/'
    · subst hc
      by_cases hlen : 500 < r.length + 1
      · simp [List.isPrefixOf, hlen]
        omega
      · rcases r with _ | ⟨c2, r2⟩
        · simp [List.isPrefixOf, isSchemeLike]
        · by_cases hc2 : c2 = '/'
          · subst hc2
            simp [List.isPrefixOf, hlen]
          · simp [List.isPrefixOf, hlen, hc2, Ne.symm hc2]
    · by_cases hlen : 500 < r.length + 1
      · simp [List.isPrefixOf, hlen]
        omega
      · simp [List.isPrefixOf, hlen, hc, Ne.symm hc]

/-- The rule loop succeeds exactly on lists with no bad rule (success case). -/
theorem validateRules_eq_ok (rules : List ProtectionRule)
    (h : rules.any ruleBad = false) : validateRules rules = Except.ok () := by
  induction rules with
  | nil => rfl
  | cons r rest ih =>
    simp only [List.any_cons, Bool.or_eq_false_iff] at h
    obtain ⟨hr, hrest⟩ := h
    unfold ruleBad at hr
    simp only [Bool.or_eq_false_iff, Bool.not_eq_false'] at hr
    obtain ⟨hpat, hrd⟩ := hr
    unfold validateRules
    rw [hpat]
    rcases hrdto : r.redirectTo with _ | rt
    · simpa using ih hrest
    · rw [hrdto] at hrd
      have hrd' : ¬(rt ≠ "" ∧ isValidRedirectPath rt = false) := by
        simpa using hrd
      simpa [hrd'] using ih hrest

/-- The rule loop raises as soon as the list contains a bad rule. -/
theorem validateRules_error (rules : List ProtectionRule)
    (h : rules.any ruleBad = true) : ∃ e, validateRules rules = Except.error e := by
  induction rules with
  | nil => simp at h
  | cons r rest ih =>
    by_cases hpat : isValidPattern r.pattern
    · rcases hrdto : r.redirectTo with _ | rt
      · have hrest : rest.any ruleBad = true := by
          simpa [ruleBad, hpat, hrdto] using h
        obtain ⟨e, he⟩ := ih hrest
        exact ⟨e, by simp [validateRules, hpat, hrdto, he]⟩
      · by_cases hbadrt : ((rt != "") && !(isValidRedirectPath rt)) = true
        · exact ⟨"[SessionKit] Invalid redirectTo: " ++ rt,
            by simp [validateRules, hpat, hrdto, hbadrt]⟩
        · have hrest : rest.any ruleBad = true := by
            simpa [ruleBad, hpat, hrdto, hbadrt] using h
          obtain ⟨e, he⟩ := ih hrest
          exact ⟨e, by simp [validateRules, hpat, hrdto, hbadrt, he]⟩
    · exact ⟨"[SessionKit] Invalid pattern: " ++ r.pattern,
        by simp [validateRules, hpat]⟩

/-- When the amended failure condition holds, `setConfig` raises. -/
theorem setConfig_error_of_bad (user : SessionKitConfig)
    (h : configBad user = true) : ∃ e, setConfig user = Except.error e := by
  unfold setConfig validateLoginPath
  rcases hlp : user.loginPath with _ | lp
  · rcases hpr : user.protect with _ | rules
    · -- only the pair check can fail
      have h3 : user.getContextStore.isSome != user.setContextStore.isSome := by
        simpa [configBad, hlp, hpr] using h
      simp [h3]
    · by_cases hany : rules.any ruleBad = true
      · obtain ⟨e, he⟩ := validateRules_error rules hany
        exact ⟨e, by simp [he]⟩
      · have h3 : user.getContextStore.isSome != user.setContextStore.isSome := by
          simpa [configBad, hlp, hpr, hany] using h
        simp [validateRules_eq_ok rules (by simpa using hany), h3]
  · by_cases hv : isValidRedirectPath lp
    · rcases hpr : user.protect with _ | rules
      · have h3 : user.getContextStore.isSome != user.setContextStore.isSome := by
          simpa [configBad, hlp, hpr, hv] using h
        simp [hv, h3]
      · by_cases hany : rules.any ruleBad = true
        · obtain ⟨e, he⟩ := validateRules_error rules hany
          exact ⟨e, by simp [hv, he]⟩
        · have h3 : user.getContextStore.isSome != user.setContextStore.isSome := by
            simpa [configBad, hlp, hpr, hv, hany] using h
          simp [validateRules_eq_ok rules (by simpa using hany), hv, h3]
    · exact ⟨"[SessionKit] Invalid loginPath: " ++ lp, by simp [hv]⟩

/-- A right-nested disjunction of three booleans is false iff each is. -/
theorem or3_eq_false {a b c : Bool} (h : (a || b || c) = false) :
    a = false ∧ b = false ∧ c = false := by
  cases a <;> cases b <;> cases c <;> simp_all

/-- When the amended failure condition fails, `setConfig` builds the
resolved configuration from the input and the defaults alone. -/
theorem setConfig_ok_of_good (user : SessionKitConfig)
    (h : configBad user = false) : setConfig user = Except.ok (resolveConfig user) := by
  unfold configBad at h
  obtain ⟨h1, h2, h3⟩ := or3_eq_false h
  unfold setConfig validateLoginPath
  rcases hlp : user.loginPath with _ | lp
  · rcases hpr : user.protect with _ | rules
    · simp [h3, resolveConfig, hlp, hpr]
    · have h2' : rules.any ruleBad = false := by simpa [hpr] using h2
      simp [validateRules_eq_ok rules h2', h3, resolveConfig, hlp, hpr]
  · have h1' : isValidRedirectPath lp = true := by simpa [hlp] using h1
    rcases hpr : user.protect with _ | rules
    · simp [h1', h3, resolveConfig, hlp, hpr]
    · have h2' : rules.any ruleBad = false := by simpa [hpr] using h2
      simp [h1', validateRules_eq_ok rules h2', h3, resolveConfig, hlp, hpr]

/--
**C9, amended.** `setConfig` raises a synchronous error and leaves the stored
configuration unchanged whenever the input has an invalid `loginPath`, some
rule with an invalid pattern, some rule whose `redirectTo` is present,
non-empty and not a valid redirect path, or exactly one of
`getContextStore`/`setContextStore`; when none of these hold, the new
configuration — built only from the input and the defaults — replaces the old
one wholesale.
-/
theorem setConfig_validation (old : ResolvedConfig) (user : SessionKitConfig) :
    (configBad user = true → applySetConfig old user = (old, true))
    ∧ (configBad user = false →
        applySetConfig old user = (resolveConfig user, false)) := by
  constructor
  · intro h
    obtain ⟨e, he⟩ := setConfig_error_of_bad user h
    simp [applySetConfig, he]
  · intro h
    simp [applySetConfig, setConfig_ok_of_good user h]

/--
Witness for C9: an invalid `loginPath` (`"//evil"`) raises and leaves the
stored configuration unchanged; the valid input `userOk` replaces it.
-/
theorem setConfig_validation_witness :
    applySetConfig DEFAULT_CONFIG userBadLoginPath = (DEFAULT_CONFIG, true)
    ∧ applySetConfig DEFAULT_CONFIG userOk = (resolveConfig userOk, false) :=
  ⟨(setConfig_validation DEFAULT_CONFIG userBadLoginPath).1 (by decide),
   (setConfig_validation DEFAULT_CONFIG userOk).2 (by decide)⟩

/--
**C9, counterexample.** The claim as stated requires a raise whenever some
rule's `redirectTo` is present but invalid; yet a present-but-empty
`redirectTo` is falsy in JS, so the guard
`rule.redirectTo && !isValidRedirectPath(rule.redirectTo)` skips it:
`ruleEmptyRedirect` carries `redirectTo: ""`, which is not a valid redirect
path, and `setConfig` nevertheless succeeds.
-/
theorem setConfig_empty_redirect_counterexample :
    ruleEmptyRedirect.redirectTo = some ""
    ∧ isValidRedirectPath "" = false
    ∧ setConfig userEmptyRedirect = Except.ok (resolveConfig userEmptyRedirect) :=
  ⟨rfl, by decide, rfl⟩

/-- A star-run scan that succeeds with a larger count also succeeds with a
smaller one. -/
theorem runsOkAux_mono (r : List Char) : ∀ n m : Nat, m ≤ n →
    runsOkAux (some n) r = true → runsOkAux (some m) r = true := by
  induction r with
  | nil =>
    intro n m hmn hn
    simp [runsOkAux] at hn ⊢
    omega
  | cons c r ih =>
    intro n m hmn hn
    by_cases hc : c = '*'
    · subst hc
      have hn' : runsOkAux (some (n + 1)) r = true := by simpa [runsOkAux] using hn
      simpa [runsOkAux] using ih (n + 1) (m + 1) (by omega) hn'
    · simp only [runsOkAux, if_neg hc, Bool.and_eq_true, decide_eq_true_eq] at hn ⊢
      exact ⟨⟨by omega, hn.1.2⟩, hn.2⟩

/-- A scan that succeeds from inside a star run also succeeds from outside. -/
theorem runsOkAux_some_none (r : List Char) : ∀ n : Nat,
    runsOkAux (some n) r = true → runsOkAux none r = true := by
  induction r with
  | nil => intro n _; rfl
  | cons c r ih =>
    intro n hn
    by_cases hc : c = '*'
    · simp only [runsOkAux, hc, if_pos rfl] at hn ⊢
      exact runsOkAux_mono r (n + 1) 1 (by omega) hn
    · simp only [runsOkAux, if_neg hc] at hn ⊢
      simp only [Bool.and_eq_true] at hn
      exact hn.2

/-- Scanning a star run of length `b` from run state `n`, followed by a
non-star continuation, succeeds only if the whole run is short enough and the
continuation starts with `/` or is empty. -/
theorem runsOkAux_run (b : Nat) : ∀ (n : Nat) (c : List Char),
    c.head? ≠ some '*' →
    runsOkAux (some n) (List.replicate b '*' ++ c) = true →
    (n + b ≤ 3 ∧ (c = [] ∨ c.head? = some '/')) := by
  induction b with
  | zero =>
    intro n c hh hn
    rcases c with _ | ⟨x, r⟩
    · simp [runsOkAux] at hn
      exact ⟨by omega, Or.inl rfl⟩
    · have hx : x ≠ '*' := by simpa using hh
      simp only [List.replicate, List.nil_append, runsOkAux, if_neg hx,
        Bool.and_eq_true, decide_eq_true_eq, beq_iff_eq] at hn
      exact ⟨by omega, Or.inr (by simp [hn.1.2])⟩
  | succ b ih =>
    intro n c hh hn
    simp only [List.replicate_succ, List.cons_append] at hn
    have hn' : runsOkAux (some (n + 1)) (List.replicate b '*' ++ c) = true := by
      simpa [runsOkAux] using hn
    have := ih (n + 1) c hh hn'
    exact ⟨by omega, this.2⟩

/-- Every maximal star run a successful scan walks over has length at most 3
and is followed by `/` or the end of the input. -/
theorem runsOkAux_decomp : ∀ (a : List Char) (b : Nat) (c : List Char),
    a.getLast? ≠ some '*' → c.head? ≠ some '*' →
    runsOkAux none (a ++ List.replicate (b + 1) '*' ++ c) = true →
    (b + 1 ≤ 3 ∧ (c = [] ∨ c.head? = some '/')) := by
  intro a
  induction a with
  | nil =>
    intro b c _ hh hn
    simp only [List.nil_append, List.replicate_succ, List.cons_append] at hn
    have hn' : runsOkAux (some 1) (List.replicate b '*' ++ c) = true := by
      simpa [runsOkAux] using hn
    have := runsOkAux_run b 1 c hh hn'
    exact ⟨by omega, this.2⟩
  | cons x a' ih =>
    intro b c hga hh hn
    by_cases hx : x = '*'
    · subst hx
      have ha' : a' ≠ [] := by
        intro hnil
        subst hnil
        simp at hga
      have hlast : a'.getLast? ≠ some '*' := by
        rcases a' with _ | ⟨y, a''⟩
        · simp
        · rwa [List.getLast?_cons_cons] at hga
      simp only [List.cons_append] at hn
      have hn' : runsOkAux (some 1) (a' ++ List.replicate (b + 1) '*' ++ c) = true := by
        simpa [runsOkAux] using hn
      exact ih b c hlast hh (runsOkAux_some_none _ 1 hn')
    · have hlast : a'.getLast? ≠ some '*' := by
        rcases a' with _ | ⟨y, a''⟩
        · simp
        · rwa [List.getLast?_cons_cons] at hga
      simp only [List.cons_append] at hn
      have hn' : runsOkAux none (a' ++ List.replicate (b + 1) '*' ++ c) = true := by
        simpa [runsOkAux, hx] using hn
      exact ih b c hlast hh hn'

/-- A pattern the validator accepts passes the star-run scan. -/
theorem isValidPattern_runs (p : String) (h : isValidPattern p = true) :
    runsOkAux none p.toList = true := by
  simp only [isValidPattern] at h
  split_ifs at h
  exact h

/-- `"/" + "*".repeat(n)` is rejected for every `n ≥ 4`. -/
theorem isValidPattern_slash_stars_ge4 :
    ∀ n, 4 ≤ n → isValidPattern (String.mk ('/' :: List.replicate n '*')) = false := by
  intro n hn
  obtain ⟨m, rfl⟩ : ∃ m, n = m + 4 := ⟨n - 4, by omega⟩
  have hrep : List.replicate (m + 4) '*'
      = '*' :: '*' :: '*' :: '*' :: List.replicate m '*' := by
    simp [List.replicate_succ]
  have hfs : hasFourStars ('/' :: List.replicate (m + 4) '*') = true := by
    rw [hrep]
    simp [hasFourStars, hfsAux]
  have hl : (String.mk ('/' :: List.replicate (m + 4) '*')).toList
      = '/' :: List.replicate (m + 4) '*' := rfl
  simp only [isValidPattern, hl]
  by_cases hbig : 1000 < ('/' :: List.replicate (m + 4) '*').length
  · simp only [List.length_cons, List.length_replicate] at hbig
    simp
    intro h995
    omega
  · simp [hbig, hfs]

/--
**C5.** `isValidPattern` accepts only patterns in which every maximal run of
consecutive `*` has length 1–3 and, when a character follows the run, that
character is `/`; in particular `"/" + "*".repeat(n)` is accepted for
`n ∈ \x7b1,2,3\x7d` and rejected for every `n ≥ 4` — a run of four or more
`*` anywhere makes the result false.
-/
theorem isValidPattern_star_runs :
    (∀ (p : String) (a : List Char) (b : Nat) (c : List Char),
        p.toList = a ++ List.replicate (b + 1) '*' ++ c →
        a.getLast? ≠ some '*' → c.head? ≠ some '*' →
        isValidPattern p = true →
        (b + 1 ≤ 3 ∧ (c = [] ∨ c.head? = some '/')))
    ∧ (isValidPattern (String.mk ('/' :: List.replicate 1 '*')) = true
       ∧ isValidPattern (String.mk ('/' :: List.replicate 2 '*')) = true
       ∧ isValidPattern (String.mk ('/' :: List.replicate 3 '*')) = true)
    ∧ (∀ n, 4 ≤ n → isValidPattern (String.mk ('/' :: List.replicate n '*')) = false) := by
  refine ⟨?_, ⟨by decide, by decide, by decide⟩, isValidPattern_slash_stars_ge4⟩
  intro p a b c hdec hga hhc hvp
  have hr := isValidPattern_runs p hvp
  rw [hdec] at hr
  exact runsOkAux_decomp a b c hga hhc hr

/--
Witness for C5: the maximal-run bound instantiated at pattern `"/***"`
(run of length 3 at the end), and the rejection of `"/****"`.
-/
theorem isValidPattern_star_runs_witness :
    (2 + 1 ≤ 3 ∧ (([] : List Char) = [] ∨ ([] : List Char).head? = some '/'))
    ∧ isValidPattern (String.mk ('/' :: List.replicate 4 '*')) = false :=
  ⟨isValidPattern_star_runs.1 (String.mk ['/', '*', '*', '*']) ['/'] 2 []
      (by decide) (by decide) (by decide) (by decide),
   isValidPattern_star_runs.2.2 4 (by norm_num)⟩

/-- The star-run scan accepts the tail of the `famPat` family. -/
theorem famTail_runs : ∀ n,
    runsOkAux none ((List.replicate n ['a', '*', '/']).flatten ++ ['a', '*']) = true := by
  intro n
  induction n with
  | zero => rfl
  | succ n ih =>
    rw [List.replicate_succ, List.flatten_cons]
    simpa [runsOkAux] using ih

/-- The four-star search fails on the tail of the `famPat` family. -/
theorem famTail_hfs : ∀ n,
    hfsAux 0 ((List.replicate n ['a', '*', '/']).flatten ++ ['a', '*']) = false := by
  intro n
  induction n with
  | zero => rfl
  | succ n ih =>
    rw [List.replicate_succ, List.flatten_cons]
    simpa [hfsAux] using ih

/-- The tail of the `famPat` family has `n + 1` wildcard-bearing segments. -/
theorem famTail_ws : ∀ n,
    wsAux false ((List.replicate n ['a', '*', '/']).flatten ++ ['a', '*']) = n + 1 := by
  intro n
  induction n with
  | zero => rfl
  | succ n ih =>
    rw [List.replicate_succ, List.flatten_cons]
    simp [wsAux, ih]
    omega

/-- Length of the repeated part of the `famPat` family. -/
theorem famTail_length : ∀ n, ((List.replicate n ['a', '*', '/']).flatten).length = 3 * n := by
  intro n
  induction n with
  | zero => rfl
  | succ n ih =>
    rw [List.replicate_succ, List.flatten_cons]
    simp [ih]
    omega

/--
**C4, counterexample.** `isValidPattern` has no cap on the number of
wildcard-bearing segments: `pat21` has 21 of them (more than 20), satisfies
every other constraint, and is accepted.
-/
theorem isValidPattern_wildcard_cap_counterexample :
    wildcardSegments pat21 = 21 ∧ isValidPattern pat21 = true := by
  constructor <;> decide

/--
**C4, amended.** `isValidPattern` imposes no wildcard-segment cap: the
pattern `"/" + "a*/".repeat(n) + "a*"`, which has `n + 1` wildcard-bearing
segments, is accepted for every `n` small enough to satisfy the 1000-character
length limit — in particular for any number of wildcard segments above 20.
-/
theorem isValidPattern_no_wildcard_cap :
    ∀ n, 3 * n + 3 ≤ 1000 →
      isValidPattern (famPat n) = true ∧ wildcardSegments (famPat n) = n + 1 := by
  intro n hn
  have hl : (famPat n).toList
      = '/' :: ((List.replicate n ['a', '*', '/']).flatten ++ ['a', '*']) := rfl
  constructor
  · have hlen : ('/' :: ((List.replicate n ['a', '*', '/']).flatten ++ ['a', '*'])).length
        = 3 * n + 3 := by
      simp [famTail_length n]
    have hfs : hasFourStars
        ('/' :: ((List.replicate n ['a', '*', '/']).flatten ++ ['a', '*'])) = false := by
      simpa [hasFourStars, hfsAux] using famTail_hfs n
    have hruns : runsOkAux none
        ('/' :: ((List.replicate n ['a', '*', '/']).flatten ++ ['a', '*'])) = true := by
      simpa [runsOkAux] using famTail_runs n
    simp only [isValidPattern, hl, hlen, hfs, hruns]
    simp
    omega
  · simpa [wildcardSegments, hl, wsAux] using famTail_ws n

/-- Witness for the amended C4 at `n = 20`: 21 wildcard-bearing segments. -/
theorem isValidPattern_no_wildcard_cap_witness :
    isValidPattern (famPat 20) = true ∧ wildcardSegments (famPat 20) = 20 + 1 :=
  isValidPattern_no_wildcard_cap 20 (by norm_num)

/-- A non-`*` character compiles to its literal token. -/
theorem globToks_cons_ne (acc : List Rtok) (prev : Option Char) (c : Char)
    (rest : List Char) (hc : c ≠ '*') :
    globToks acc prev (c :: rest) = globToks (acc ++ [Rtok.lit c]) (some c) rest := by
  simp [globToks, hc]

/-- Stripping the trailing slash literal undoes appending it. -/
theorem stripSlash_concat (l : List Rtok) : stripSlash (l ++ [Rtok.lit '/']) = l := by
  unfold stripSlash
  rw [List.getLast?_concat]
  simp

/-- Compiling a `*`-free prefix followed by a final `/**`: the prefix becomes
literals, the trailing `/` is stripped, and `(?:/.*)?` is appended. -/
theorem globToks_lits_optTail (s : List Char) :
    (∀ c ∈ s, c ≠ '*') → ∀ (acc : List Rtok) (prev : Option Char),
    globToks acc prev (s ++ ['/', '*', '*'])
      = acc ++ s.map Rtok.lit ++ [Rtok.optTail] := by
  induction s with
  | nil =>
    intro _ acc prev
    rw [List.nil_append, globToks_cons_ne acc prev '/' ['*', '*'] (by decide)]
    show (if ([] : List Char) = [] ∧ (some '/' : Option Char) = some '/' then
        globToks (stripSlash (acc ++ [Rtok.lit '/']) ++ [Rtok.optTail]) (some '*') []
      else globToks (acc ++ [Rtok.lit '/'] ++ [Rtok.star]) (some '*') []) = _
    rw [if_pos ⟨rfl, rfl⟩]
    show stripSlash (acc ++ [Rtok.lit '/']) ++ [Rtok.optTail] = _
    rw [stripSlash_concat]
    simp
  | cons c s' ih =>
    intro hs acc prev
    have hc : c ≠ '*' := hs c (by simp)
    rw [List.cons_append, globToks_cons_ne acc prev c _ hc,
      ih (fun x hx => hs x (by simp [hx])) (acc ++ [Rtok.lit c]) (some c)]
    simp

/-- Compiling a `*`-free prefix followed by a final lone `*`: the prefix
becomes literals and `[^/]+(?:/[^/]+)*` is appended. -/
theorem globToks_lits_segplus (s : List Char) :
    (∀ c ∈ s, c ≠ '*') → ∀ (acc : List Rtok) (prev : Option Char),
    globToks acc prev (s ++ ['*'])
      = acc ++ s.map Rtok.lit ++ [Rtok.segplus] := by
  induction s with
  | nil =>
    intro _ acc prev
    rw [List.nil_append]
    show acc ++ [Rtok.segplus] = _
    simp
  | cons c s' ih =>
    intro hs acc prev
    have hc : c ≠ '*' := hs c (by simp)
    rw [List.cons_append, globToks_cons_ne acc prev c _ hc,
      ih (fun x hx => hs x (by simp [hx])) (acc ++ [Rtok.lit c]) (some c)]
    simp

/-- A block of literal tokens matches exactly its characters, and hands the
remainder to the rest of the regex. -/
theorem tokMatch_lits (s : List Char) (ts : List Rtok) : ∀ w : List Char,
    (tokMatch (s.map Rtok.lit ++ ts) w = true
      ↔ ∃ r, w = s ++ r ∧ tokMatch ts r = true) := by
  induction s with
  | nil => intro w; simp
  | cons c s' ih =>
    intro w
    cases w with
    | nil =>
      simp only [List.map_cons, List.cons_append, tokMatch]
      simp
    | cons x xs =>
      simp only [List.map_cons, List.cons_append, tokMatch, Bool.and_eq_true,
        beq_iff_eq, List.append_eq]
      rw [ih xs]
      constructor
      · rintro ⟨hx, r, hr, hm⟩
        exact ⟨r, by simp [hx, hr], hm⟩
      · rintro ⟨r, hr, hm⟩
        simp only [List.cons_append, List.cons.injEq] at hr
        exact ⟨hr.1, r, hr.2, hm⟩

/-- The empty list is one of the suffixes of every list. -/
theorem nil_mem_suffixes : ∀ w : List Char, [] ∈ suffixes w := by
  intro w
  induction w with
  | nil => simp [suffixes]
  | cons c r ih => simp [suffixes, ih]

/-- The regex `^(?:/.*)?$` accepts exactly the empty path and paths starting
with `/`. -/
theorem tokMatch_optTail_only : ∀ w : List Char,
    (tokMatch [Rtok.optTail] w = true ↔ (w = [] ∨ w.head? = some '/')) := by
  intro w
  cases w with
  | nil => simp [tokMatch]
  | cons x xs =>
    simp only [tokMatch, Bool.or_eq_true, Bool.and_eq_true, beq_iff_eq]
    constructor
    · rintro (h | ⟨hx, _⟩)
      · simp [List.isEmpty_iff] at h
      · exact Or.inr (by simp [hx])
    · rintro (h | h)
      · exact absurd h (by simp)
      · refine Or.inr ⟨by simpa using h, ?_⟩
        rw [List.any_eq_true]
        exact ⟨[], nil_mem_suffixes xs, rfl⟩

/-- Every split returned by `splits` reassembles to the input. -/
theorem splits_fst_append_snd : ∀ (w : List Char) (q : List Char × List Char),
    q ∈ splits w → q.1 ++ q.2 = w := by
  intro w
  induction w with
  | nil =>
    intro q hq
    simp [splits] at hq
    simp [hq]
  | cons c r ih =>
    intro q hq
    simp only [splits, List.mem_cons, List.mem_map] at hq
    rcases hq with rfl | ⟨q', hq', rfl⟩
    · rfl
    · simpa using congrArg (fun l => c :: l) (ih q' hq')

/-- The full-input split is among the splits. -/
theorem self_nil_mem_splits : ∀ w : List Char, (w, ([] : List Char)) ∈ splits w := by
  intro w
  induction w with
  | nil => simp [splits]
  | cons c r ih =>
    simp only [splits, List.mem_cons, List.mem_map]
    exact Or.inr ⟨(r, []), ih, rfl⟩

/-- The regex `^[^/]+(?:/[^/]+)*$` accepts exactly the `segWord` language. -/
theorem tokMatch_segplus_only : ∀ w : List Char,
    (tokMatch [Rtok.segplus] w = true ↔ segWord w = true) := by
  intro w
  simp only [tokMatch, List.any_eq_true, Bool.and_eq_true]
  constructor
  · rintro ⟨q, hq, hseg, hnil⟩
    have h2 : q.2 = [] := by
      simpa [tokMatch, List.isEmpty_iff] using hnil
    have := splits_fst_append_snd w q hq
    rw [h2, List.append_nil] at this
    rwa [this] at hseg
  · intro h
    exact ⟨(w, []), self_nil_mem_splits w, h, rfl⟩

/--
**C2.** For every pattern `p ++ "/**"` whose prefix `p` is wildcard-free, the
matcher accepts exactly the prefix alone, the prefix with a trailing slash,
and the prefix followed by `/` and any suffix — anchored at both ends; in
particular `/a/**` matches `/a`, `/a/`, `/a/b` and `/a/b/c` but not `/z`.
-/
theorem matchesPattern_final_double_star :
    (∀ p path : String, (∀ c ∈ p.toList, c ≠ '*') →
      (matchesPattern (p ++ "/**") path = true
        ↔ (path = p ∨ ∃ s : String, path = p ++ "/" ++ s)))
    ∧ matchesPattern "/a/**" "/a" = true
    ∧ matchesPattern "/a/**" ("/a" ++ "/") = true
    ∧ matchesPattern "/a/**" "/a/b" = true
    ∧ matchesPattern "/a/**" "/a/b/c" = true
    ∧ matchesPattern "/a/**" "/z" = false := by
  refine ⟨?_, by decide, by decide, by decide, by decide, by decide⟩
  intro p path hp
  have htl : (p ++ "/**").toList = p.toList ++ ['/', '*', '*'] := by
    show (p ++ "/**").data = p.data ++ ['/', '*', '*']
    rw [String.data_append]
  unfold matchesPattern globToRegex
  rw [htl, globToks_lits_optTail p.toList hp [] none, List.nil_append,
    tokMatch_lits p.toList [Rtok.optTail] path.toList]
  constructor
  · rintro ⟨r, hr, hm⟩
    rw [tokMatch_optTail_only r] at hm
    rcases hm with rfl | hh
    · left
      apply String.ext
      simpa using hr
    · rcases r with _ | ⟨x, xs⟩
      · simp at hh
      · have hx : x = '/' := by simpa using hh
        subst hx
        right
        refine ⟨String.mk xs, ?_⟩
        apply String.ext
        show path.data = (p ++ "/" ++ String.mk xs).data
        rw [String.data_append, String.data_append]
        simpa using hr
  · rintro (rfl | ⟨s, rfl⟩)
    · exact ⟨[], by simp, by rw [tokMatch_optTail_only]; exact Or.inl rfl⟩
    · refine ⟨'/' :: s.toList, ?_, ?_⟩
      · show (p ++ "/" ++ s).data = p.data ++ '/' :: s.data
        simp [String.data_append]
      · rw [tokMatch_optTail_only]
        exact Or.inr rfl

/--
Witness for C2: the general law instantiated at prefix `"/a"` and path
`"/a/b"`.
-/
theorem matchesPattern_final_double_star_witness :
    matchesPattern ("/a" ++ "/**") "/a/b" = true :=
  (matchesPattern_final_double_star.1 "/a" "/a/b" (by decide)).mpr
    (Or.inr ⟨"b", by decide⟩)

/--
**C3.** A lone `*` matches one or more path segments greedily and never zero:
for a wildcard-free prefix `p`, the pattern `p ++ "*"` matches exactly the
paths `p ++ w` where `w` is a non-empty sequence of non-empty segments
(`segWord`, which rejects the empty string); in particular `/a/*` does not
match `/a` or `/a/` but matches `/a/b` and `/a/b/c`, and in `/*/admin/*` each
`*` independently requires at least one segment.
-/
theorem matchesPattern_single_star :
    (∀ p path : String, (∀ c ∈ p.toList, c ≠ '*') →
      (matchesPattern (p ++ "*") path = true
        ↔ ∃ w : String, segWord w.toList = true ∧ path = p ++ w))
    ∧ segWord [] = false
    ∧ matchesPattern "/a/*" "/a" = false
    ∧ matchesPattern "/a/*" "/a/" = false
    ∧ matchesPattern "/a/*" "/a/b" = true
    ∧ matchesPattern "/a/*" "/a/b/c" = true
    ∧ matchesPattern "/*/admin/*" "/x/admin/y" = true
    ∧ matchesPattern "/*/admin/*" "/x/admin" = false
    ∧ matchesPattern "/*/admin/*" "/admin/y" = false := by
  refine ⟨?_, by decide, by decide, by decide, by decide, by decide, by decide,
    by decide, by decide⟩
  intro p path hp
  have htl : (p ++ "*").toList = p.toList ++ ['*'] := by
    show (p ++ "*").data = p.data ++ ['*']
    rw [String.data_append]
  unfold matchesPattern globToRegex
  rw [htl, globToks_lits_segplus p.toList hp [] none, List.nil_append,
    tokMatch_lits p.toList [Rtok.segplus] path.toList]
  constructor
  · rintro ⟨r, hr, hm⟩
    rw [tokMatch_segplus_only r] at hm
    refine ⟨String.mk r, by simpa using hm, ?_⟩
    apply String.ext
    show path.data = (p ++ String.mk r).data
    rw [String.data_append]
    exact hr
  · rintro ⟨w, hw, rfl⟩
    refine ⟨w.toList, ?_, ?_⟩
    · show (p ++ w).data = p.data ++ w.data
      rw [String.data_append]
    · rw [tokMatch_segplus_only]
      exact hw

/--
Witness for C3: the general law instantiated at prefix `"/a/"` and path
`"/a/b/c"`, the wildcard greedily absorbing the two segments `b/c`.
-/
theorem matchesPattern_single_star_witness :
    matchesPattern ("/a/" ++ "*") "/a/b/c" = true :=
  (matchesPattern_single_star.1 "/a/" "/a/b/c" (by decide)).mpr
    ⟨"b/c", by decide, by decide⟩
